import Mathlib

/-!
# Verification of the Roo-Code intent-governance layer (`HookEngine`)

This file gives a shallow embedding, in Lean 4, of the intent-governance
layer of the repository:

* `src/hooks/HookEngine.ts` — the `HookEngine` class: `preToolExecution`,
  `postToolExecution`, `traceAction`, `enforceScope`, and the
  `activeIntents` session registry (a `taskId → intentId` map);
* `src/core/tools/SelectActiveIntentTool.ts` — the `select_active_intent`
  tool's `execute` method;
* the relevant behaviour of Node's `path.relative` (POSIX) and of
  `crypto.createHash('sha256')`, which the engine calls.

External collaborators are made explicit parameters:

* YAML parsing (`parseYaml` from the `yaml` package) is an uninterpreted
  function `String → ParseResult`; individual theorems fix its value on
  the concrete documents they mention;
* the filesystem content of `.orchestration/active_intents.yaml` is an
  `Option String` (`none` = the file does not exist);
* wall-clock timestamps and git metadata are opaque strings passed in.

Observable side channels (`console.warn` / `console.error`, thrown
exceptions) are reflected in the result types, so that "denies", "warns
and proceeds" and "silently proceeds" are distinguishable outcomes.
-/

namespace RooHooks

/-! ## Paths: Node `path.relative` for POSIX paths

`HookEngine.enforceScope` computes `path.relative(task.cwd, filePath)`.
We embed the POSIX behaviour of `path.relative` for absolute inputs:
both paths are resolved (`.` and `..` segments eliminated, `..` at the
root stays at the root), the common component prefix is dropped, and the
result is `..` for every remaining component of `from` followed by the
remaining components of `to`.  A relative `filePath` is resolved against
`cwd` (Node would resolve it against the process working directory; the
engine is only ever handed absolute tool paths, and the embedding fixes
the process directory to `task.cwd`). -/

/-- JavaScript / Node `String.prototype.startsWith`, over characters
(structural recursion, so it reduces inside the kernel). -/
def strStartsWith (s pre : String) : Bool :=
  pre.toList.isPrefixOf s.toList

/-- Split a string on `/` (the char-level equivalent of
`String.splitOn "/"`). -/
def splitSlash (p : String) : List String :=
  p.toList.foldr
    (fun c acc =>
      if c = '/' then "" :: acc
      else
        match acc with
        | s :: rest => (String.singleton c ++ s) :: rest
        | [] => [String.singleton c])
    [""]

/-- Split a path on `/`, dropping empty segments and `.` segments. -/
def pathSegments (p : String) : List String :=
  (splitSlash p).filter (fun s => s ≠ "" && s ≠ ".")

/-- Resolve `..` segments against an absolute-path component list
(`..` at the root is dropped, as in POSIX `path.resolve`). -/
def resolveDots : List String → List String
  | [] => []
  | s :: rest =>
    if s = ".." then resolveDots rest
    else
      let r := resolveDotsAux [s] rest
      r
where
  /-- Stack-based resolution: `acc` holds already-resolved components. -/
  resolveDotsAux (acc : List String) : List String → List String
    | [] => acc
    | s :: rest =>
      if s = ".." then
        resolveDotsAux (acc.dropLast) rest
      else
        resolveDotsAux (acc ++ [s]) rest

/-- Components of the absolute resolution of `p`; a relative `p` is
resolved against the absolute `base`. -/
def absSegments (base p : String) : List String :=
  if strStartsWith p "/" then resolveDots (pathSegments p)
  else resolveDots (pathSegments base ++ pathSegments p)

/-- Drop the longest shared leading run of two component lists,
returning the two remainders. -/
def dropCommonLead : List String → List String → List String × List String
  | a :: as, b :: bs =>
    if a = b then dropCommonLead as bs else (a :: as, b :: bs)
  | as, bs => (as, bs)

/-- Node `path.relative(fromPath, toPath)` for POSIX paths (see above for
the treatment of relative inputs). -/
def pathRelative (fromPath toPath : String) : String :=
  let f := absSegments fromPath fromPath
  let t := absSegments fromPath toPath
  let (fr, tr) := dropCommonLead f t
  joinSlash (fr.map (fun _ => "..") ++ tr)
where
  /-- Join components with `/` (the char-level equivalent of
  `String.intercalate "/"`). -/
  joinSlash : List String → String
    | [] => ""
    | [s] => s
    | s :: rest => s ++ "/" ++ joinSlash rest

/-- Node `path.join(a, b, c)` for the two concrete uses in the engine,
which join a directory with relative segments. -/
def pathJoin (a b c : String) : String := a ++ "/" ++ b ++ "/" ++ c

/-- Is `needle` an infix of `hay` (structural scan)? -/
def listInfixOf (needle : List Char) : List Char → Bool
  | [] => needle.isEmpty
  | h :: rest => needle.isPrefixOf (h :: rest) || listInfixOf needle rest

/-- JavaScript `String.prototype.includes`: substring containment. -/
def strIncludes (s sub : String) : Bool :=
  listInfixOf sub.toList s.toList

/-! ## SHA-256

`traceAction` computes
`crypto.createHash('sha256').update(params.content || "").digest('hex')`.
We embed SHA-256 (FIPS 180-4) over the UTF-8 bytes of the input string,
with 32-bit words as `Nat` truncated mod `2^32`.  The implementation is
validated below against the standard test vectors (`sha256Hex_empty`,
`sha256Hex_abc`). -/

/-- Truncate to a 32-bit word. -/
def w32 (n : Nat) : Nat := n % 4294967296

/-- 32-bit right rotation. -/
def rotr (n x : Nat) : Nat := w32 ((x >>> n) ||| (x <<< (32 - n)))

/-- UTF-8 encoding of one scalar value, as a list of bytes. -/
def utf8EncodeChar (c : Char) : List Nat :=
  let n := c.toNat
  if n < 128 then [n]
  else if n < 2048 then
    [192 ||| (n >>> 6), 128 ||| (n &&& 63)]
  else if n < 65536 then
    [224 ||| (n >>> 12), 128 ||| ((n >>> 6) &&& 63), 128 ||| (n &&& 63)]
  else
    [240 ||| (n >>> 18), 128 ||| ((n >>> 12) &&& 63),
     128 ||| ((n >>> 6) &&& 63), 128 ||| (n &&& 63)]

/-- UTF-8 bytes of a string (what `hash.update(string)` digests, the
default encoding of Node's `crypto`). -/
def utf8Bytes (s : String) : List Nat :=
  s.toList.foldr (fun c acc => utf8EncodeChar c ++ acc) []

/-- SHA-256 round constants (FIPS 180-4 §4.2.2, written in decimal). -/
def sha256K : List Nat :=
  [1116352408, 1899447441, 3049323471, 3921009573, 961987163, 1508970993,
   2453635748, 2870763221, 3624381080, 310598401, 607225278, 1426881987,
   1925078388, 2162078206, 2614888103, 3248222580, 3835390401, 4022224774,
   264347078, 604807628, 770255983, 1249150122, 1555081692, 1996064986,
   2554220882, 2821834349, 2952996808, 3210313671, 3336571891, 3584528711,
   113926993, 338241895, 666307205, 773529912, 1294757372, 1396182291,
   1695183700, 1986661051, 2177026350, 2456956037, 2730485921, 2820302411,
   3259730800, 3345764771, 3516065817, 3600352804, 4094571909, 275423344,
   430227734, 506948616, 659060556, 883997877, 958139571, 1322822218,
   1537002063, 1747873779, 1955562222, 2024104815, 2227730452, 2361852424,
   2428436474, 2756734187, 3204031479, 3329325298]

/-- SHA-256 initial hash state (FIPS 180-4 §5.3.3, written in decimal). -/
def sha256H0 : List Nat :=
  [1779033703, 3144134277, 1013904242, 2773480762, 1359893119, 2600822924,
   528734635, 1541459225]

/-- SHA-256 message padding: append byte `0x80`, zero bytes until the
length is 56 mod 64, then the bit length as 8 big-endian bytes. -/
def padMsg (msg : List Nat) : List Nat :=
  let L := msg.length
  let zeros := (119 - L % 64) % 64
  let bits := 8 * L
  msg ++ [128] ++ List.replicate zeros 0 ++
    [(bits >>> 56) &&& 255, (bits >>> 48) &&& 255, (bits >>> 40) &&& 255, (bits >>> 32) &&& 255,
     (bits >>> 24) &&& 255, (bits >>> 16) &&& 255, (bits >>> 8) &&& 255, bits &&& 255]

/-- Split a byte list into 64-byte chunks; structural recursion on a
fuel bound (the list length, which bounds the number of chunks) so that
the definition reduces inside the kernel. -/
def chunks64Fuel : Nat → List Nat → List (List Nat)
  | 0, _ => []
  | _, [] => []
  | fuel + 1, a :: rest => ((a :: rest).take 64) :: chunks64Fuel fuel ((a :: rest).drop 64)

/-- Split a byte list into 64-byte chunks. -/
def chunks64 (l : List Nat) : List (List Nat) := chunks64Fuel l.length l

/-- Big-endian 32-bit words from a byte list. -/
def toWords : List Nat → List Nat
  | a :: b :: c :: d :: rest => (((a * 256 + b) * 256 + c) * 256 + d) :: toWords rest
  | _ => []

/-- Extend the 16 message-schedule words by `n` further words. -/
def extendSchedule (w : List Nat) : Nat → List Nat
  | 0 => w
  | n + 1 =>
    let i := w.length
    let x15 := w.getD (i - 15) 0
    let x2 := w.getD (i - 2) 0
    let s0 := (rotr 7 x15) ^^^ (rotr 18 x15) ^^^ (x15 >>> 3)
    let s1 := (rotr 17 x2) ^^^ (rotr 19 x2) ^^^ (x2 >>> 10)
    extendSchedule (w ++ [w32 (w.getD (i - 16) 0 + s0 + w.getD (i - 7) 0 + s1)]) n

/-- One SHA-256 compression round on the eight-word working state. -/
def compressRound (st : List Nat) (kw : Nat × Nat) : List Nat :=
  match st with
  | [a, b, c, d, e, f, g, h] =>
    let S1 := (rotr 6 e) ^^^ (rotr 11 e) ^^^ (rotr 25 e)
    let ch := (e &&& f) ^^^ ((e ^^^ 4294967295) &&& g)
    let temp1 := w32 (h + S1 + ch + kw.1 + kw.2)
    let S0 := (rotr 2 a) ^^^ (rotr 13 a) ^^^ (rotr 22 a)
    let maj := (a &&& b) ^^^ (a &&& c) ^^^ (b &&& c)
    let temp2 := w32 (S0 + maj)
    [w32 (temp1 + temp2), a, b, c, w32 (d + temp1), e, f, g]
  | other => other

/-- Process one 64-byte block into the running hash state. -/
def processBlock (h : List Nat) (block : List Nat) : List Nat :=
  let w := extendSchedule (toWords block) 48
  let st := (sha256K.zip w).foldl compressRound h
  (h.zip st).map (fun p => w32 (p.1 + p.2))

/-- SHA-256 of a byte list, as eight 32-bit words. -/
def sha256Words (msg : List Nat) : List Nat :=
  (chunks64 (padMsg msg)).foldl processBlock sha256H0

/-- Lower-case hex digit. -/
def hexDigit (n : Nat) : Char :=
  if n < 10 then Char.ofNat (48 + n) else Char.ofNat (87 + n)

/-- Fixed-width lower-case big-endian hex rendering (first argument:
number of nibbles). -/
def toHexFixed : Nat → Nat → String
  | 0, _ => ""
  | d + 1, n => toHexFixed d (n >>> 4) ++ String.singleton (hexDigit (n &&& 15))

/-- `crypto.createHash('sha256').update(s).digest('hex')`: the SHA-256
digest of the UTF-8 bytes of `s`, in lower-case hex. -/
def sha256Hex (s : String) : String :=
  String.join ((sha256Words (utf8Bytes s)).map (toHexFixed 8))

/-! ## Data model -/

/-- An entry of `.orchestration/active_intents.yaml`
(interface `ActiveIntent` in `HookEngine.ts`). -/
structure ActiveIntent where
  id : String
  name : String
  status : String
  owned_scope : List String
  constraints : List String
  acceptance_criteria : List String
deriving Repr, DecidableEq

/-- Outcome of `parseYaml` on the raw store text, as `enforceScope`
consumes it: the parse may throw (`failure`), may produce a non-array
value (`notArray`, in which case the code sets `intent = null`), or may
produce an array of intents. -/
inductive ParseResult where
  | failure
  | notArray
  | array (intents : List ActiveIntent)
deriving Repr, DecidableEq

/-- The session registry `activeIntents : Map<string, string>`
(`taskId → intentId`), embedded as an association list. -/
abbrev Registry := List (String × String)

/-- `Map.get`. -/
def regGet (m : Registry) (k : String) : Option String :=
  match List.find? (fun p => p.1 == k) m with
  | some p => some p.2
  | none => none

/-- `Map.set`: overwrite an existing binding for `k`, else append. -/
def regSet (m : Registry) (k v : String) : Registry :=
  match m with
  | [] => [(k, v)]
  | p :: rest => if p.1 == k then (k, v) :: rest else p :: regSet rest k v

/-! ## `enforceScope`

`private async enforceScope(intentId, filePath, task)` in
`HookEngine.ts`.  Its observable outcomes: it throws a
`Scope Violation` error, or it returns normally — possibly after a
`console.warn` (intent not found in the YAML) or a `console.error`
(caught read/parse error).  All four outcomes are kept distinct. -/

/-- Observable outcome of `enforceScope`. -/
inductive ScopeOutcome where
  /-- Returned without any log: the store file is absent, or the
  scope check passed. -/
  | ok
  /-- Logged `console.warn` that the intent was not found in the yaml,
  then returned normally (also taken when the YAML parses to a
  non-array, which makes `intent` null). -/
  | okWarnIntentNotFound
  /-- A thrown parse error was caught, `console.error` logged, and
  the function returned normally. -/
  | okLoggedError
  /-- Threw a `Scope Violation` error, re-thrown by the catch block. -/
  | scopeViolation (msg : String)
deriving Repr, DecidableEq

/-- Does the outcome let the mutating action proceed (no exception)? -/
def ScopeOutcome.allows : ScopeOutcome → Bool
  | .scopeViolation _ => false
  | _ => true

/-- The scope test of `enforceScope`, verbatim from the source:
`intent.owned_scope.some(scope => scope === relativePath || scope === filePath
|| relativePath.startsWith(scope) || filePath.startsWith(scope))`. -/
def scopeSome (ownedScope : List String) (relativePath filePath : String) : Bool :=
  ownedScope.any (fun scope =>
    scope == relativePath || scope == filePath ||
    strStartsWith relativePath scope || strStartsWith filePath scope)

/-- The `Scope Violation` message text built by `enforceScope`
(quotes written as `\x27`; the `Owned scopes: ...` suffix, a JSON
rendering of the scope list, is elided from the embedding — the code
only ever branches on the `Scope Violation` leading text). -/
def scopeViolationMsg (intentId relativePath : String) : String :=
  "Scope Violation: Intent \x27" ++ intentId ++ "\x27 is not authorized to edit \x27"
    ++ relativePath ++ "\x27."

/-- `HookEngine.enforceScope`.  `parseYaml` is the external YAML
library; `store` is the content of
`task.cwd/.orchestration/active_intents.yaml` (`none` if
`fileExistsAtPath` is false). -/
def enforceScope (parseYaml : String → ParseResult) (store : Option String)
    (intentId : String) (filePath : String) (cwd : String) : ScopeOutcome :=
  match store with
  | none => .ok
  | some content =>
    match parseYaml content with
    | .failure => .okLoggedError
    | .notArray => .okWarnIntentNotFound
    | .array intents =>
      match List.find? (fun i => i.id == intentId) intents with
      | none => .okWarnIntentNotFound
      | some intent =>
        let relativePath := pathRelative cwd filePath
        if scopeSome intent.owned_scope relativePath filePath then .ok
        else .scopeViolation (scopeViolationMsg intentId relativePath)

/-! ## Tool parameters and the pre-hook -/

/-- The dynamic `params: any` payload of a tool call, restricted to the
fields the engine reads: `params.path` and `params.content` (for
`write_to_file`) and `params.intent_id` (for `select_active_intent`).
`none` models an absent (`undefined`) field. -/
structure ToolParams where
  path : String
  content : Option String
  intent_id : Option String
deriving Repr, DecidableEq

/-- JavaScript truthiness of an optional string field
(`undefined`, `null` and `""` are falsy). -/
def truthyStr : Option String → Bool
  | none => false
  | some s => s ≠ ""

/-- Observable outcome of `HookEngine.preToolExecution`. -/
inductive PreOutcome where
  /-- Returned normally with no warning. -/
  | proceed
  /-- Logged `console.warn("[HookEngine] WRITE attempted without
  Active Intent")` and returned normally (the strict-mode throw in the
  source is commented out). -/
  | proceedWarnNoIntent
  /-- `enforceScope` warned that the intent was not found, and the call
  returned normally. -/
  | proceedWarnIntentNotFound
  /-- `enforceScope` caught and logged a parse error, and the call
  returned normally. -/
  | proceedLoggedError
  /-- `enforceScope` threw a `Scope Violation` error, which propagates
  to the caller and aborts the tool. -/
  | blocked (msg : String)
deriving Repr, DecidableEq

/-- Does the pre-hook outcome let the mutating action proceed? -/
def PreOutcome.allows : PreOutcome → Bool
  | .blocked _ => false
  | _ => true

/-- `HookEngine.preToolExecution(toolName, params, task)`.  `reg` is the
engine's `activeIntents` registry; `taskId` and `cwd` are the fields of
`task` the engine reads. -/
def preToolExecution (parseYaml : String → ParseResult) (store : Option String)
    (toolName : String) (params : ToolParams) (reg : Registry)
    (taskId cwd : String) : PreOutcome :=
  if toolName == "write_to_file" then
    match regGet reg taskId with
    | none => .proceedWarnNoIntent
    | some intentId =>
      match enforceScope parseYaml store intentId params.path cwd with
      | .ok => .proceed
      | .okWarnIntentNotFound => .proceedWarnIntentNotFound
      | .okLoggedError => .proceedLoggedError
      | .scopeViolation msg => .blocked msg
  else .proceed

/-! ## Tracing and the post-hook -/

/-- Git metadata attached to a trace entry (`getGitMetadata(task.cwd)`,
an external collaborator, supplied opaquely). -/
structure GitMeta where
  branch : String
  commit : String
deriving Repr, DecidableEq

/-- One line of `.orchestration/agent_trace.jsonl`, with the fields
`traceAction` writes (`params` is flattened into `path` and
`content_hash`). -/
structure TraceEntry where
  timestamp : String
  intent_id : String
  tool : String
  path : String
  content_hash : String
  result_summary : String
  file_hash : String
  git : GitMeta
deriving Repr, DecidableEq

/-- `HookEngine.traceAction(toolName, params, result, task)`: appends
one entry to the trace log if the task has a bound intent, else does
nothing.  `result` is `some s` when the tool result is a string
(`result.substring(0, 100)` is kept), `none` otherwise.  `timestamp` is
the external clock read (`new Date().toISOString()`). -/
def traceAction (toolName : String) (params : ToolParams) (result : Option String)
    (timestamp : String) (git : GitMeta) (reg : Registry) (taskId : String)
    (log : List TraceEntry) : List TraceEntry :=
  match regGet reg taskId with
  | none => log
  | some intentId =>
    let contentHash := sha256Hex (params.content.getD "")
    log ++ [{ timestamp := timestamp
              intent_id := intentId
              tool := toolName
              path := params.path
              content_hash := contentHash
              result_summary := match result with
                | some s => String.mk (s.toList.take 100)
                | none => "Result too large/complex"
              file_hash := contentHash
              git := git }]

/-- `HookEngine.postToolExecution(toolName, params, result, task)`:
records the session binding after `select_active_intent` (only when
`params.intent_id` is truthy), appends a trace entry after
`write_to_file`, and does nothing for other tools.  Returns the updated
registry and trace log. -/
def postToolExecution (toolName : String) (params : ToolParams) (result : Option String)
    (timestamp : String) (git : GitMeta) (reg : Registry) (taskId : String)
    (log : List TraceEntry) : Registry × List TraceEntry :=
  if toolName == "select_active_intent" then
    (if truthyStr params.intent_id then regSet reg taskId (params.intent_id.getD "") else reg,
     log)
  else if toolName == "write_to_file" then
    (reg, traceAction toolName params result timestamp git reg taskId log)
  else (reg, log)

/-! ## `SelectActiveIntentTool.execute` -/

/-- Observable outcome of `SelectActiveIntentTool.execute` (thrown
errors are routed to `handleError`; on success the context block is
pushed as the tool result and the post-hook has run). -/
inductive SelectResult where
  /-- Threw `"No active intents found. ..."`: the store file is absent. -/
  | errNoStore
  /-- Threw `"Intent ID ... not found in active_intents.yaml"`. -/
  | errNotFound (intent_id : String)
  /-- Pushed `contextBlock` and ran the post-hook, yielding the updated
  registry and log. -/
  | success (contextBlock : String) (reg : Registry) (log : List TraceEntry)
deriving Repr, DecidableEq

/-- `SelectActiveIntentTool.execute({intent_id}, task, callbacks)` from
`src/core/tools/SelectActiveIntentTool.ts`: wraps the *raw* store text
in an `<intent_context>` block, validates the id by a plain substring
test (`content.includes(intent_id)`), then runs the post-hook that
records the binding. -/
def selectExecute (store : Option String) (intent_id : String) (reg : Registry)
    (log : List TraceEntry) (taskId : String) (timestamp : String) (git : GitMeta) :
    SelectResult :=
  match store with
  | none => .errNoStore
  | some content =>
    let contextBlock := "<intent_context>\n" ++ content ++ "\n</intent_context>"
    if strIncludes content intent_id then
      let (reg2, log2) := postToolExecution "select_active_intent"
        { path := "", content := none, intent_id := some intent_id } (some contextBlock)
        timestamp git reg taskId log
      .success contextBlock reg2 log2
    else .errNotFound intent_id

/-! ## The full write pipeline -/

/-- Result of one `write_to_file` tool call run through both hooks. -/
structure WriteRun where
  /-- Did the mutation execute (pre-hook did not throw)? -/
  performed : Bool
  /-- The pre-hook outcome. -/
  pre : PreOutcome
  /-- Registry after the call. -/
  reg : Registry
  /-- Trace log after the call. -/
  log : List TraceEntry
deriving Repr, DecidableEq

/-- Modelled from the spec: the `BaseTool` pipeline
(`src/core/tools/BaseTool.ts` is not among the provided sources; §6 of
the spec requires every mutating tool to call `pre_action` before its
effect — a thrown denial aborts the tool — and `post_action` after it,
and the implementation report quotes exactly this pre → execute → post
sequence).  One `write_to_file` call: the pre-hook gates, and only an
allowed call executes and reaches the post-hook. -/
def runWriteTool (parseYaml : String → ParseResult) (store : Option String)
    (params : ToolParams) (result : Option String) (timestamp : String)
    (git : GitMeta) (reg : Registry) (taskId cwd : String)
    (log : List TraceEntry) : WriteRun :=
  let pre := preToolExecution parseYaml store "write_to_file" params reg taskId cwd
  if pre.allows then
    let (reg2, log2) := postToolExecution "write_to_file" params result timestamp git reg taskId log
    { performed := true, pre := pre, reg := reg2, log := log2 }
  else
    { performed := false, pre := pre, reg := reg, log := log }

/-! ## The spec-side scope matcher (for the refinement claim C1)

Transcribed from the spec's words (§4.1): ALLOW iff some scope entry is
an exact match to the normalized (project-root-relative) target, or the
normalized target lies within the subtree rooted at the entry, prefix
matching done component-wise. -/

/-- The scope matcher as the spec words it (named `authorize` there). -/
def specScopeMatcher (cwd filePath : String) (ownedScope : List String) : Bool :=
  let rel := pathRelative cwd filePath
  ownedScope.any (fun scope =>
    scope == rel || (pathSegments scope).isPrefixOf (pathSegments rel))

/-! ## Concrete fixtures

The YAML documents below are the ones the repository's own tests and
reports use (`HookEngine.test.ts` uses intent `INT-001` with
`owned_scope: ["src/hooks/", "docs/README.md"]`).  Each `parseXxx`
function fixes the external YAML parser's value on the one document the
fixture mentions, failing elsewhere. -/

/-- The store document of `HookEngine.test.ts`. -/
def yamlStd : String :=
  "- id: INT-001\n  owned_scope:\n    - src/hooks/\n    - docs/README.md\n"

/-- The parsed intent of `yamlStd`. -/
def intentStd : ActiveIntent :=
  { id := "INT-001", name := "Hook System Implementation", status := "in_progress",
    owned_scope := ["src/hooks/", "docs/README.md"], constraints := [],
    acceptance_criteria := [] }

/-- YAML parser fixed on `yamlStd`. -/
def parseStd : String → ParseResult :=
  fun c => if c = yamlStd then .array [intentStd] else .failure

/-- A store whose single intent owns the scope entry `src/hook`. -/
def yamlHook : String := "- id: INT-001\n  owned_scope:\n    - src/hook\n"

/-- The parsed intent of `yamlHook`. -/
def intentHook : ActiveIntent :=
  { id := "INT-001", name := "hook work", status := "pending",
    owned_scope := ["src/hook"], constraints := [], acceptance_criteria := [] }

/-- YAML parser fixed on `yamlHook`. -/
def parseHook : String → ParseResult :=
  fun c => if c = yamlHook then .array [intentHook] else .failure

/-- A store whose single intent owns the scope entry `..`. -/
def yamlDots : String := "- id: INT-001\n  owned_scope:\n    - ..\n"

/-- The parsed intent of `yamlDots`. -/
def intentDots : ActiveIntent :=
  { id := "INT-001", name := "dots", status := "pending",
    owned_scope := [".."], constraints := [], acceptance_criteria := [] }

/-- YAML parser fixed on `yamlDots`. -/
def parseDots : String → ParseResult :=
  fun c => if c = yamlDots then .array [intentDots] else .failure

/-- A store holding only the intent `INT-0012` (whose id contains
`INT-001` as a proper substring) with an empty scope. -/
def yaml9 : String := "- id: INT-0012\n  owned_scope: []\n"

/-- The parsed intent of `yaml9`. -/
def intent9 : ActiveIntent :=
  { id := "INT-0012", name := "other work", status := "pending",
    owned_scope := [], constraints := [], acceptance_criteria := [] }

/-- YAML parser fixed on `yaml9`. -/
def parse9 : String → ParseResult :=
  fun c => if c = yaml9 then .array [intent9] else .failure

/-- Opaque git metadata used by the concrete scenarios. -/
def gitC : GitMeta := { branch := "main", commit := "c0" }

/-! ## Validation of the embedding

Standard SHA-256 test vectors, and Scenario A of the spec (also the
repository's own unit tests): allowed and denied paths under
`yamlStd`. -/

/-- FIPS 180-4 test vector: the digest of the empty input. -/
theorem sha256Hex_empty :
    sha256Hex "" = "e3b0c44298fc1c149afbf4c8996fb92427ae41e4649b934ca495991b7852b855" := by
  decide

/-- FIPS 180-4 test vector: the digest of `abc`. -/
theorem sha256Hex_abc :
    sha256Hex "abc" = "ba7816bf8f01cfea414140de5dae2223b00361a396177a9cb410ff61f20015ad" := by
  decide

/-- Scenario A of the spec and of `HookEngine.test.ts`: under `yamlStd`
the two in-scope paths are allowed and `package.json` is denied. -/
theorem scenarioA_matches_tests :
    enforceScope parseStd (some yamlStd) "INT-001" "/mock/cwd/src/hooks/test.ts" "/mock/cwd" = .ok
    ∧ enforceScope parseStd (some yamlStd) "INT-001" "/mock/cwd/docs/README.md" "/mock/cwd" = .ok
    ∧ (enforceScope parseStd (some yamlStd) "INT-001" "/mock/cwd/package.json" "/mock/cwd").allows
        = false := by
  decide

/-! ## C1 — scope matching is a naive string prefix, not component-wise -/

/-- The source's scope test (`owned_scope.some(...)`), characterized as
an existential over the scope entries. -/
theorem scopeSome_characterization (S : List String) (rel fp : String) :
    scopeSome S rel fp = true ↔
      ∃ scope ∈ S, scope = rel ∨ scope = fp ∨
        strStartsWith rel scope = true ∨ strStartsWith fp scope = true := by
  simp only [scopeSome, List.any_eq_true, Bool.or_eq_true, beq_iff_eq]
  constructor
  · rintro ⟨x, hx, hc⟩
    exact ⟨x, hx, by tauto⟩
  · rintro ⟨x, hx, hc⟩
    exact ⟨x, hx, by tauto⟩

/-- C1 counterexample: the claim says scope entry `src/hook` must not
authorize `src/hooks-evil` (prefix matching is claimed to be
component-wise).  The code's matcher is a naive `startsWith`, so with
`owned_scope = ["src/hook"]` the target `/root/src/hooks-evil` is
allowed, while the spec-side matcher denies it. -/
theorem C1_counterexample :
    intentHook.owned_scope = ["src/hook"]
    ∧ parseHook yamlHook = ParseResult.array [intentHook]
    ∧ enforceScope parseHook (some yamlHook) "INT-001" "/root/src/hooks-evil" "/root"
        = ScopeOutcome.ok
    ∧ specScopeMatcher "/root" "/root/src/hooks-evil" ["src/hook"] = false := by
  decide

/-- C1 amended: when the store is present, parses to an intent list and
the bound intent is found, `enforceScope` allows the target iff some
scope entry equals the root-relative target or the raw target, or is a
naive string prefix (not component-wise) of either of them; otherwise
it denies. -/
theorem C1_naive_string_scope_matching (parseYaml : String → ParseResult)
    (content : String) (intents : List ActiveIntent) (intent : ActiveIntent)
    (intentId filePath cwd : String)
    (hparse : parseYaml content = ParseResult.array intents)
    (hfind : List.find? (fun i => i.id == intentId) intents = some intent) :
    (enforceScope parseYaml (some content) intentId filePath cwd).allows = true ↔
      ∃ scope ∈ intent.owned_scope,
        scope = pathRelative cwd filePath ∨ scope = filePath ∨
        strStartsWith (pathRelative cwd filePath) scope = true ∨
        strStartsWith filePath scope = true := by
  simp only [enforceScope, hparse, hfind]
  rw [← scopeSome_characterization intent.owned_scope (pathRelative cwd filePath) filePath]
  cases h : scopeSome intent.owned_scope (pathRelative cwd filePath) filePath <;>
    simp [h, ScopeOutcome.allows]

/-- C1 witness: the amended characterization applied to the test fixture
(scope entry `src/hooks/` is a string prefix of `src/hooks/test.ts`). -/
theorem C1_naive_string_scope_matching_witness :
    (enforceScope parseStd (some yamlStd) "INT-001" "/mock/cwd/src/hooks/test.ts" "/mock/cwd").allows
      = true :=
  (C1_naive_string_scope_matching parseStd yamlStd [intentStd] intentStd "INT-001"
      "/mock/cwd/src/hooks/test.ts" "/mock/cwd" (by decide) (by decide)).mpr
    ⟨"src/hooks/", by decide, by decide⟩

/-! ## C2 — an unresolvable bound intent is allowed with a warning,
not denied with `IntentNotFound` -/

/-- C2 counterexample: the session is bound to `INT-404`, which is not
in the (well-formed) store; the claim requires a denial with reason
`IntentNotFound`, but the pre-hook only logs a warning and allows the
mutation. -/
theorem C2_counterexample :
    List.find? (fun i => i.id == "INT-404") [intentStd] = none
    ∧ preToolExecution parseStd (some yamlStd) "write_to_file"
        { path := "/mock/cwd/src/hooks/test.ts", content := none, intent_id := none }
        [("task-1", "INT-404")] "task-1" "/mock/cwd"
      = PreOutcome.proceedWarnIntentNotFound
    ∧ PreOutcome.proceedWarnIntentNotFound.allows = true := by
  decide

/-- C2 amended: when the bound intent id does not resolve against the
loaded intent store, the pre-action check logs a warning and allows the
mutating action (returns without throwing); no `IntentNotFound` denial
exists. -/
theorem C2_unresolved_intent_allows_with_warning (parseYaml : String → ParseResult)
    (content : String) (intents : List ActiveIntent) (params : ToolParams)
    (reg : Registry) (taskId cwd intentId : String)
    (hbound : regGet reg taskId = some intentId)
    (hparse : parseYaml content = ParseResult.array intents)
    (hfind : List.find? (fun i => i.id == intentId) intents = none) :
    preToolExecution parseYaml (some content) "write_to_file" params reg taskId cwd
      = PreOutcome.proceedWarnIntentNotFound := by
  simp only [preToolExecution, hbound, enforceScope, hparse, hfind]
  rfl

/-- C2 witness: the amended statement at the counterexample input. -/
theorem C2_unresolved_intent_allows_with_warning_witness :
    preToolExecution parseStd (some yamlStd) "write_to_file"
        { path := "/mock/cwd/src/hooks/test.ts", content := none, intent_id := none }
        [("task-1", "INT-404")] "task-1" "/mock/cwd"
      = PreOutcome.proceedWarnIntentNotFound :=
  C2_unresolved_intent_allows_with_warning parseStd yamlStd [intentStd]
    { path := "/mock/cwd/src/hooks/test.ts", content := none, intent_id := none }
    [("task-1", "INT-404")] "task-1" "/mock/cwd" "INT-404" (by decide) (by decide) (by decide)

/-! ## C3 — malformed store content is swallowed, not surfaced -/

/-- C3 counterexample: the store is present but the YAML parser fails on
its content; the claim requires a distinct `IntentStoreCorrupt` error
and no authorization, but the pre-hook catches the error, logs it, and
allows the pending mutation. -/
theorem C3_counterexample :
    parseStd "bad: [yaml" = ParseResult.failure
    ∧ preToolExecution parseStd (some "bad: [yaml") "write_to_file"
        { path := "/mock/cwd/package.json", content := none, intent_id := none }
        [("task-1", "INT-001")] "task-1" "/mock/cwd"
      = PreOutcome.proceedLoggedError
    ∧ PreOutcome.proceedLoggedError.allows = true := by
  decide

/-- C3 amended: when the session is bound and the store content is
malformed, the pre-action check allows the pending mutating action — a
parse failure is caught and logged (never surfaced to the caller), and
a parse to a non-list value is treated like a missing intent and only
warned about.  No `IntentStoreCorrupt` error exists. -/
theorem C3_corrupt_store_allows (parseYaml : String → ParseResult)
    (content : String) (params : ToolParams) (reg : Registry)
    (taskId cwd intentId : String)
    (hbound : regGet reg taskId = some intentId)
    (hbad : parseYaml content = ParseResult.failure ∨ parseYaml content = ParseResult.notArray) :
    (preToolExecution parseYaml (some content) "write_to_file" params reg taskId cwd).allows
      = true := by
  rcases hbad with h | h <;>
    simp only [preToolExecution, hbound, enforceScope, h] <;> rfl

/-- C3 witness: the amended statement at the counterexample input. -/
theorem C3_corrupt_store_allows_witness :
    (preToolExecution parseStd (some "bad: [yaml") "write_to_file"
        { path := "/mock/cwd/package.json", content := none, intent_id := none }
        [("task-1", "INT-001")] "task-1" "/mock/cwd").allows = true :=
  C3_corrupt_store_allows parseStd "bad: [yaml"
    { path := "/mock/cwd/package.json", content := none, intent_id := none }
    [("task-1", "INT-001")] "task-1" "/mock/cwd" "INT-001" (by decide) (Or.inl (by decide))

/-! ## C4 — an absent store disables enforcement, not authorization -/

/-- C4 counterexample: with the store file absent and the session bound,
the pre-hook silently allows any write (`enforceScope` returns before
any check), contradicting the claim that no mutating write is ever
authorized while a session believes it is bound. -/
theorem C4_counterexample :
    preToolExecution parseStd none "write_to_file"
        { path := "/mock/cwd/package.json", content := none, intent_id := none }
        [("task-1", "INT-001")] "task-1" "/mock/cwd"
      = PreOutcome.proceed
    ∧ PreOutcome.proceed.allows = true := by
  decide

/-- C4 amended: if the intent store file does not exist, the
select-intent tool fails with an error (it does not load an empty
sequence), and the governance layer skips scope enforcement entirely,
so every mutating write is silently allowed while the session is
bound. -/
theorem C4_absent_store_skips_enforcement (parseYaml : String → ParseResult)
    (params : ToolParams) (reg : Registry) (log : List TraceEntry)
    (taskId cwd intentId selId ts : String) (git : GitMeta)
    (hbound : regGet reg taskId = some intentId) :
    selectExecute none selId reg log taskId ts git = SelectResult.errNoStore
    ∧ preToolExecution parseYaml none "write_to_file" params reg taskId cwd
        = PreOutcome.proceed := by
  constructor
  · rfl
  · simp only [preToolExecution, hbound]
    rfl

/-- C4 witness: the amended statement at the counterexample input. -/
theorem C4_absent_store_skips_enforcement_witness :
    selectExecute none "INT-001" [("task-1", "INT-001")] [] "task-1" "T0" gitC
        = SelectResult.errNoStore
    ∧ preToolExecution parseStd none "write_to_file"
        { path := "/mock/cwd/package.json", content := none, intent_id := none }
        [("task-1", "INT-001")] "task-1" "/mock/cwd"
      = PreOutcome.proceed :=
  C4_absent_store_skips_enforcement parseStd
    { path := "/mock/cwd/package.json", content := none, intent_id := none }
    [("task-1", "INT-001")] [] "task-1" "/mock/cwd" "INT-001" "INT-001" "T0" gitC (by decide)

/-! ## C5 — no out-of-root handling exists -/

/-- C5 counterexample: the target `/etc/passwd` escapes the project root
`/root` (its relative form is `../etc/passwd`), yet with the non-empty
scope `[".."]` the naive prefix match authorizes it — the claim says an
escaping target is always denied, with a distinct out-of-root reason. -/
theorem C5_counterexample :
    strStartsWith (pathRelative "/root" "/etc/passwd") ".." = true
    ∧ intentDots.owned_scope = [".."]
    ∧ enforceScope parseDots (some yamlDots) "INT-001" "/etc/passwd" "/root"
        = ScopeOutcome.ok := by
  decide

/-- C5 amended: a target that escapes the project root receives no
special treatment: it is allowed whenever some scope entry matches it
under the naive string rules (see `C5_counterexample`), and otherwise
denied with the ordinary `Scope Violation` reason — no distinct
out-of-root reason exists. -/
theorem C5_escape_denied_as_ordinary_violation (parseYaml : String → ParseResult)
    (content : String) (intents : List ActiveIntent) (intent : ActiveIntent)
    (intentId filePath cwd : String)
    (hparse : parseYaml content = ParseResult.array intents)
    (hfind : List.find? (fun i => i.id == intentId) intents = some intent)
    (_hescape : strStartsWith (pathRelative cwd filePath) ".." = true)
    (hnomatch : scopeSome intent.owned_scope (pathRelative cwd filePath) filePath = false) :
    enforceScope parseYaml (some content) intentId filePath cwd
      = ScopeOutcome.scopeViolation (scopeViolationMsg intentId (pathRelative cwd filePath)) := by
  simp only [enforceScope, hparse, hfind, hnomatch]
  rfl

/-- C5 witness: an escaping target under the test fixture scope is
denied with the ordinary `Scope Violation` message. -/
theorem C5_escape_denied_as_ordinary_violation_witness :
    enforceScope parseStd (some yamlStd) "INT-001" "/etc/shadow" "/mock/cwd"
      = ScopeOutcome.scopeViolation
          (scopeViolationMsg "INT-001" (pathRelative "/mock/cwd" "/etc/shadow")) :=
  C5_escape_denied_as_ordinary_violation parseStd yamlStd [intentStd] intentStd
    "INT-001" "/etc/shadow" "/mock/cwd" (by decide) (by decide) (by decide) (by decide)

/-! ## C6 — an empty scope authorizes nothing -/

/-- C6: if the bound intent is found in the store and its `owned_scope`
is the empty list, the scope check denies every target path with a
`Scope Violation`. -/
theorem C6_empty_scope_denies_every_target (parseYaml : String → ParseResult)
    (content : String) (intents : List ActiveIntent) (intent : ActiveIntent)
    (intentId filePath cwd : String)
    (hparse : parseYaml content = ParseResult.array intents)
    (hfind : List.find? (fun i => i.id == intentId) intents = some intent)
    (hscope : intent.owned_scope = []) :
    enforceScope parseYaml (some content) intentId filePath cwd
      = ScopeOutcome.scopeViolation (scopeViolationMsg intentId (pathRelative cwd filePath)) := by
  simp only [enforceScope, hparse, hfind, hscope, scopeSome]
  rfl

/-- C6 witness: the intent `INT-0012` has an empty scope and its writes
are denied. -/
theorem C6_empty_scope_denies_every_target_witness :
    intent9.owned_scope = []
    ∧ enforceScope parse9 (some yaml9) "INT-0012" "/root/x.ts" "/root"
        = ScopeOutcome.scopeViolation
            (scopeViolationMsg "INT-0012" (pathRelative "/root" "/root/x.ts")) :=
  ⟨by decide,
   C6_empty_scope_denies_every_target parse9 yaml9 [intent9] intent9 "INT-0012"
     "/root/x.ts" "/root" (by decide) (by decide) (by decide)⟩

/-! ## C7 — non-strict unbound behaviour exists; strict mode does not -/

/-- C7 counterexample: with no intent bound, a `write_to_file` pre-hook
call results in allow-with-warning; it is not a denial (the claim
additionally requires a supported strict mode denying with
`NoActiveIntent`, but the engine has no mode flag at all — the strict
throw exists only as a comment in the source, so the unbound case
always proceeds). -/
theorem C7_counterexample :
    preToolExecution parseStd (some yamlStd) "write_to_file"
        { path := "/mock/cwd/any.ts", content := none, intent_id := none }
        [] "task-1" "/mock/cwd"
      = PreOutcome.proceedWarnNoIntent
    ∧ PreOutcome.proceedWarnNoIntent.allows = true := by
  decide

/-- C7 amended: when no intent is bound for the session, a
`write_to_file` pre-hook call warns and allows (for every store state),
and the post-action trace step writes no record; no strict mode is
implemented — there is no configuration under which this situation is
denied. -/
theorem C7_unbound_write_allows_with_warning_untraced
    (parseYaml : String → ParseResult) (store : Option String)
    (params : ToolParams) (result : Option String) (ts : String) (git : GitMeta)
    (reg : Registry) (taskId cwd : String) (log : List TraceEntry)
    (hunbound : regGet reg taskId = none) :
    preToolExecution parseYaml store "write_to_file" params reg taskId cwd
      = PreOutcome.proceedWarnNoIntent
    ∧ traceAction "write_to_file" params result ts git reg taskId log = log := by
  constructor
  · simp only [preToolExecution, hunbound]
    rfl
  · simp only [traceAction, hunbound]

/-- C7 witness: the amended statement at the counterexample input. -/
theorem C7_unbound_write_allows_with_warning_untraced_witness :
    preToolExecution parseStd (some yamlStd) "write_to_file"
        { path := "/mock/cwd/any.ts", content := none, intent_id := none }
        [] "task-1" "/mock/cwd"
      = PreOutcome.proceedWarnNoIntent
    ∧ traceAction "write_to_file"
        { path := "/mock/cwd/any.ts", content := none, intent_id := none }
        (some "File written") "T0" gitC [] "task-1" [] = [] :=
  C7_unbound_write_allows_with_warning_untraced parseStd (some yamlStd)
    { path := "/mock/cwd/any.ts", content := none, intent_id := none }
    (some "File written") "T0" gitC [] "task-1" "/mock/cwd" [] (by decide)

/-! ## C8 — audit completeness and the content fingerprint -/

/-- C8: for a `write_to_file` call while the session is bound, if the
pre-hook allows then the run appends exactly one trace record, whose
`content_fingerprint` (both `content_hash` and `file_hash`) is the
SHA-256 digest of `params.content || ""` — the digest of the empty
input when the tool supplies no content; if the pre-hook denies, the
action does not execute and the trace log is unchanged. -/
theorem C8_trace_completeness (parseYaml : String → ParseResult)
    (store : Option String) (params : ToolParams) (result : Option String)
    (ts : String) (git : GitMeta) (reg : Registry) (taskId cwd : String)
    (log : List TraceEntry) (intentId : String)
    (hbound : regGet reg taskId = some intentId) :
    ((preToolExecution parseYaml store "write_to_file" params reg taskId cwd).allows = true →
      (runWriteTool parseYaml store params result ts git reg taskId cwd log).log
        = log ++ [{ timestamp := ts
                    intent_id := intentId
                    tool := "write_to_file"
                    path := params.path
                    content_hash := sha256Hex (params.content.getD "")
                    result_summary := match result with
                      | some s => String.mk (s.toList.take 100)
                      | none => "Result too large/complex"
                    file_hash := sha256Hex (params.content.getD "")
                    git := git }])
    ∧ ((preToolExecution parseYaml store "write_to_file" params reg taskId cwd).allows = false →
      (runWriteTool parseYaml store params result ts git reg taskId cwd log).log = log
        ∧ (runWriteTool parseYaml store params result ts git reg taskId cwd log).performed
            = false)
    ∧ (params.content = none → sha256Hex (params.content.getD "") = sha256Hex "") := by
  refine ⟨?_, ?_, ?_⟩
  · intro hallow
    simp only [runWriteTool, hallow, if_true, postToolExecution, traceAction, hbound]
    rfl
  · intro hdeny
    simp only [runWriteTool, hdeny]
    exact ⟨rfl, rfl⟩
  · intro hnone
    rw [hnone]
    rfl

/-- C8 witness: Scenario C of the spec — a bound, in-scope write with
content `const x = 1;` appends exactly the one record whose fingerprint
is the SHA-256 digest of that content. -/
theorem C8_trace_completeness_witness :
    (runWriteTool parseStd (some yamlStd)
        { path := "/mock/cwd/src/hooks/test.ts", content := some "const x = 1;",
          intent_id := none }
        none "T0" gitC [("task-1", "INT-001")] "task-1" "/mock/cwd" []).log
      = [{ timestamp := "T0"
           intent_id := "INT-001"
           tool := "write_to_file"
           path := "/mock/cwd/src/hooks/test.ts"
           content_hash := "3f41cbb303012f33212c92326b27f6cc604fd414e20315cb10f2be7f1f6bb83c"
           result_summary := "Result too large/complex"
           file_hash := "3f41cbb303012f33212c92326b27f6cc604fd414e20315cb10f2be7f1f6bb83c"
           git := gitC }] := by
  have h := (C8_trace_completeness parseStd (some yamlStd)
      { path := "/mock/cwd/src/hooks/test.ts", content := some "const x = 1;",
        intent_id := none }
      none "T0" gitC [("task-1", "INT-001")] "task-1" "/mock/cwd" [] "INT-001"
      (by decide)).1 (by decide)
  rw [h]
  decide

/-! ## C9 — select-intent validates by raw substring and returns the
whole store -/

/-- C9 counterexample: the store holds only the intent `INT-0012`, so no
intent with id `INT-001` is present; the claim requires the select
action to fail, but it succeeds — `content.includes("INT-001")` is
satisfied by the substring of `INT-0012` — and it returns the entire
raw store (the other intent's content) as the context block, binding
the session to the nonexistent id. -/
theorem C9_counterexample :
    parse9 yaml9 = ParseResult.array [intent9]
    ∧ List.find? (fun i => i.id == "INT-001") [intent9] = none
    ∧ selectExecute (some yaml9) "INT-001" [] [] "task-1" "T0" gitC
        = SelectResult.success ("<intent_context>\n" ++ yaml9 ++ "\n</intent_context>")
            [("task-1", "INT-001")] [] := by
  decide

/-- C9 amended: the select-intent action fails iff the store file is
absent or the given id does not occur as a raw substring of the store
text (it does not check the parsed intent list); on success it returns
the entire raw store content wrapped in an `intent_context` block —
including content belonging to other intents — and binds the session to
the id (when the id is nonempty). -/
theorem C9_select_by_raw_substring (content intent_id : String) (reg : Registry)
    (log : List TraceEntry) (taskId ts : String) (git : GitMeta) :
    (selectExecute none intent_id reg log taskId ts git = SelectResult.errNoStore)
    ∧ (strIncludes content intent_id = false →
        selectExecute (some content) intent_id reg log taskId ts git
          = SelectResult.errNotFound intent_id)
    ∧ (strIncludes content intent_id = true →
        selectExecute (some content) intent_id reg log taskId ts git
          = SelectResult.success ("<intent_context>\n" ++ content ++ "\n</intent_context>")
              (if intent_id = "" then reg else regSet reg taskId intent_id) log) := by
  refine ⟨rfl, ?_, ?_⟩
  · intro hno
    simp only [selectExecute, hno]
    rfl
  · intro hyes
    simp only [selectExecute, hyes, if_true, postToolExecution, truthyStr]
    by_cases hid : intent_id = "" <;> simp [hid]

/-- C9 witness: the amended statement applied to the `yaml9` store and
the id `INT-001` (contained as a raw substring). -/
theorem C9_select_by_raw_substring_witness :
    strIncludes yaml9 "INT-001" = true
    ∧ selectExecute (some yaml9) "INT-001" [] [] "task-1" "T0" gitC
        = SelectResult.success ("<intent_context>\n" ++ yaml9 ++ "\n</intent_context>")
            (if "INT-001" = "" then [] else regSet [] "task-1" "INT-001") [] :=
  ⟨by decide,
   (C9_select_by_raw_substring yaml9 "INT-001" [] [] "task-1" "T0" gitC).2.2 (by decide)⟩

/-! ## C10 — a falsy `intent_id` leaves the registry unchanged -/

/-- C10: if the post-hook runs for `select_active_intent` with a
missing (`undefined`) or empty `intent_id`, the session registry and
the trace log are both returned unchanged — no binding is created,
overwritten or removed for any session. -/
theorem C10_falsy_intent_id_leaves_registry (params : ToolParams)
    (result : Option String) (ts : String) (git : GitMeta) (reg : Registry)
    (taskId : String) (log : List TraceEntry)
    (hfalsy : truthyStr params.intent_id = false) :
    postToolExecution "select_active_intent" params result ts git reg taskId log
      = (reg, log) := by
  simp only [postToolExecution, hfalsy]
  rfl

/-- C10 witness: an empty `intent_id` leaves another session's binding
untouched. -/
theorem C10_falsy_intent_id_leaves_registry_witness :
    postToolExecution "select_active_intent"
        { path := "", content := none, intent_id := some "" }
        (some "ctx") "T0" gitC [("task-9", "INT-9")] "task-1" []
      = ([("task-9", "INT-9")], []) :=
  C10_falsy_intent_id_leaves_registry
    { path := "", content := none, intent_id := some "" }
    (some "ctx") "T0" gitC [("task-9", "INT-9")] "task-1" [] (by decide)

end RooHooks
